import Mathlib

/-!
Shallow embedding of the pdf_editor document model, history engine, snap
engine and export adapter, together with proofs about the properties the
specification states.  Numeric page-space coordinates are modelled as
rationals; Python lists become Lean lists; a raised Python exception
becomes an `Except.error` (or `Option.none` where noted); values that
Python mutates in place are threaded explicitly.
-/

namespace PdfEditor

/-- Axis aligned rectangle helper (document.py, class Rect). -/
structure Rect where
  x : ℚ
  y : ℚ
  width : ℚ
  height : ℚ
deriving DecidableEq, Repr

/-- Derived edge: right = x + width. -/
def Rect.right (r : Rect) : ℚ := r.x + r.width

/-- Derived edge: bottom = y + height. -/
def Rect.bottom (r : Rect) : ℚ := r.y + r.height

instance : Inhabited Rect := ⟨⟨0, 0, 0, 0⟩⟩

/-- Variant payload of an element.  The source has a base dataclass
`Element` and two subclasses `ImageElement` (source_path, image_bytes)
and `TextElement` (text, font_family, font_size, color); this closed sum
carries exactly the kind-specific fields of each subclass. -/
inductive ElementKind where
  | base : ElementKind
  | image (sourcePath : String) (imageBytes : List Nat) : ElementKind
  | text (text : String) (fontFamily : String) (fontSize : ℚ) (color : String) : ElementKind
deriving DecidableEq, Repr

/-- Base element placed on a PDF page (document.py, class Element),
with the subclass fields folded into `kind`. -/
structure Element where
  id : String
  rect : Rect
  rotation : ℚ := 0
  opacity : ℚ := 1
  locked : Bool := false
  visible : Bool := true
  kind : ElementKind := ElementKind.base
deriving DecidableEq, Repr

/-- Element.move_to: sets rect.x and rect.y to the given values. -/
def Element.move_to (e : Element) (x y : ℚ) : Element :=
  { e with rect := { e.rect with x := x, y := y } }

/-- Element.resize: sets rect.width and rect.height, each clamped below
by 1.0. -/
def Element.resize (e : Element) (width height : ℚ) : Element :=
  { e with rect := { e.rect with width := max 1 width, height := max 1 height } }

/-- Represents a single page of a PDF document (document.py,
class PageModel). -/
structure PageModel where
  width : ℚ
  height : ℚ
  rotation : Int := 0
  sourceIndex : Option Nat := none
  elements : List Element := []
  uid : String
  label : String := ""
  note : String := ""
deriving DecidableEq, Repr

/-- PageModel.add_element: appends the element to the page. -/
def PageModel.add_element (p : PageModel) (element : Element) : PageModel :=
  { p with elements := p.elements ++ [element] }

/-- Removal of the first element with the given id from a list,
returning the removed element (if any) and the remaining list; this is
the loop of PageModel.remove_element (enumerate, compare ids, pop). -/
def removeFirstById (es : List Element) (element_id : String) :
    Option Element × List Element :=
  match es with
  | [] => (none, [])
  | e :: rest =>
    if e.id = element_id then (some e, rest)
    else
      let r := removeFirstById rest element_id
      (r.1, e :: r.2)

/-- PageModel.remove_element: pops and returns the first element whose
id matches; returns none (and leaves the page unchanged) when no
element matches. -/
def PageModel.remove_element (p : PageModel) (element_id : String) :
    Option Element × PageModel :=
  let r := removeFirstById p.elements element_id
  (r.1, { p with elements := r.2 })

/-- PageModel.find_element: first element with the given id. -/
def PageModel.find_element (p : PageModel) (element_id : String) : Option Element :=
  p.elements.find? (fun e => e.id = element_id)

/-- Editable PDF document (document.py, class DocumentModel). -/
structure DocumentModel where
  sourcePath : String
  pages : List PageModel := []
deriving DecidableEq, Repr

/-- Position at which Python list.insert places the new entry: a
negative index counts from the end (clamped at 0), an index beyond the
length appends. -/
def pyInsertIdx (i : Int) (n : Nat) : Nat :=
  if i < 0 then (max 0 (i + n)).toNat else min i.toNat n

/-- Python list.insert semantics. -/
def pyInsert {α : Type} (l : List α) (i : Int) (a : α) : List α :=
  l.take (pyInsertIdx i l.length) ++ a :: l.drop (pyInsertIdx i l.length)

/-- Python sequence-index normalization: a negative index counts from
the end. -/
def pyIndex (i : Int) (n : Nat) : Int := if i < 0 then i + n else i

/-- Python list.pop(i) semantics: a negative index counts from the end;
an out-of-range index raises IndexError, modelled as `Except.error`. -/
def pyPop {α : Type} (l : List α) (i : Int) : Except String (α × List α) :=
  if 0 ≤ pyIndex i l.length ∧ pyIndex i l.length < (l.length : Int) then
    match l.drop (pyIndex i l.length).toNat with
    | a :: rest => Except.ok (a, l.take (pyIndex i l.length).toNat ++ rest)
    | [] => Except.error "IndexError"
  else
    Except.error "IndexError"

/-- DocumentModel.get_page: index access (raises on out of range). -/
def DocumentModel.get_page (d : DocumentModel) (index : Int) :
    Except String PageModel :=
  (pyPop d.pages index).map Prod.fst

/-- DocumentModel.insert_page: list.insert at the index. -/
def DocumentModel.insert_page (d : DocumentModel) (index : Int) (page : PageModel) :
    DocumentModel :=
  { d with pages := pyInsert d.pages index page }

/-- DocumentModel.append_page. -/
def DocumentModel.append_page (d : DocumentModel) (page : PageModel) : DocumentModel :=
  { d with pages := d.pages ++ [page] }

/-- DocumentModel.remove_page: `self.pages.pop(index)` — returns the
removed page together with the remaining document, raising IndexError
(modelled as `Except.error`) when the index is out of range. -/
def DocumentModel.remove_page (d : DocumentModel) (index : Int) :
    Except String (PageModel × DocumentModel) :=
  (pyPop d.pages index).map (fun r => (r.1, { d with pages := r.2 }))

/-- DocumentModel.find_page_by_id: first page with the given uid. -/
def DocumentModel.find_page_by_id (d : DocumentModel) (page_id : String) :
    Option PageModel :=
  d.pages.find? (fun p => p.uid = page_id)

/-- DocumentModel.index_of_page. -/
def DocumentModel.index_of_page (d : DocumentModel) (page_id : String) : Option Nat :=
  d.pages.findIdx? (fun p => p.uid = page_id)

/-- DocumentModel.page_count. -/
def DocumentModel.page_count (d : DocumentModel) : Nat := d.pages.length

/-- clone_element (document.py): builds a fresh Rect from the four rect
fields, then dispatches on the concrete variant, copying the shared
fields plus every kind-specific field of that variant. -/
def clone_element (element : Element) : Element :=
  let rect : Rect := ⟨element.rect.x, element.rect.y, element.rect.width, element.rect.height⟩
  match element.kind with
  | ElementKind.image sp ib =>
    { id := element.id, rect := rect, rotation := element.rotation,
      opacity := element.opacity, locked := element.locked,
      visible := element.visible, kind := ElementKind.image sp ib }
  | ElementKind.text t ff fs c =>
    { id := element.id, rect := rect, rotation := element.rotation,
      opacity := element.opacity, locked := element.locked,
      visible := element.visible, kind := ElementKind.text t ff fs c }
  | ElementKind.base =>
    { id := element.id, rect := rect, rotation := element.rotation,
      opacity := element.opacity, locked := element.locked,
      visible := element.visible, kind := ElementKind.base }

/-- On values, clone_element reproduces the element exactly: every
shared field and every kind-specific field is copied. -/
theorem clone_element_eq_self (e : Element) : clone_element e = e := by
  cases e with
  | mk id rect rotation opacity locked visible kind =>
    cases rect
    cases kind <;> rfl

/-! History (undo/redo) engine: main_window.py, MainWindow._push_history,
_undo, _redo, _apply_history_command.  The relevant MainWindow state is
the optional document and the two command stacks; the UI refresh calls
do not touch the model and are omitted. -/

/-- HistoryCommand (main_window.py): action name, page uid, and the
stored element snapshot. -/
structure HistoryCommand where
  action : String
  pageId : String
  element : Element
deriving DecidableEq, Repr

/-- The model-relevant state of MainWindow: the open document (None
before a file is loaded) and the undo/redo stacks. -/
structure MainWindowState where
  document : Option DocumentModel
  undoStack : List HistoryCommand
  redoStack : List HistoryCommand
deriving DecidableEq, Repr

/-- Replacement of the first page with the given uid by its image under
f; pages after the first match are untouched.  This models an in-place
mutation of the page object returned by find_page_by_id. -/
def updateFirstPage (ps : List PageModel) (page_id : String)
    (f : PageModel → PageModel) : List PageModel :=
  match ps with
  | [] => []
  | p :: rest =>
    if p.uid = page_id then f p :: rest
    else p :: updateFirstPage rest page_id f

/-- MainWindow._push_history: wraps a clone of the element in a command,
appends it to the undo stack and clears the redo stack. -/
def push_history (s : MainWindowState) (action : String) (page_id : String)
    (element : Element) : MainWindowState :=
  { s with
    undoStack := s.undoStack ++ [⟨action, page_id, clone_element element⟩],
    redoStack := [] }

/-- MainWindow._apply_history_command acting on the document: looks the
page up by uid (silent no-op when absent), clones the stored element,
then inserts or removes it according to the action and direction. -/
def apply_history_command (d : DocumentModel) (command : HistoryCommand)
    (undo : Bool) : DocumentModel :=
  match d.find_page_by_id command.pageId with
  | none => d
  | some _ =>
    let element := clone_element command.element
    if command.action = "insert" then
      if undo then
        { d with pages := (updateFirstPage d.pages command.pageId
            (fun p => (p.remove_element element.id).2)) }
      else
        { d with pages := (updateFirstPage d.pages command.pageId
            (fun p => p.add_element element)) }
    else if command.action = "delete" then
      if undo then
        { d with pages := (updateFirstPage d.pages command.pageId
            (fun p => p.add_element element)) }
      else
        { d with pages := (updateFirstPage d.pages command.pageId
            (fun p => (p.remove_element element.id).2)) }
    else d

/-- MainWindow._undo: no-op without a document or with an empty undo
stack; otherwise pop the last command, apply it in the undo direction
and append it to the redo stack. -/
def undoStep (s : MainWindowState) : MainWindowState :=
  match s.document with
  | none => s
  | some d =>
    match s.undoStack.getLast? with
    | none => s
    | some command =>
      { document := some (apply_history_command d command true),
        undoStack := s.undoStack.dropLast,
        redoStack := s.redoStack ++ [command] }

/-- MainWindow._redo: no-op without a document or with an empty redo
stack; otherwise pop the last command, apply it in the forward
direction and append it to the undo stack. -/
def redoStep (s : MainWindowState) : MainWindowState :=
  match s.document with
  | none => s
  | some d =>
    match s.redoStack.getLast? with
    | none => s
    | some command =>
      { document := some (apply_history_command d command false),
        undoStack := s.undoStack ++ [command],
        redoStack := s.redoStack.dropLast }

/-! Page reordering: main_window.py, MainWindow._move_page_up and
_move_page_down swap adjacent entries of document.pages (guarded by the
current index being movable). -/

instance : Inhabited PageModel := ⟨{ width := 0, height := 0, uid := "" }⟩

/-- Swap of the adjacent pages at positions idx-1 and idx, the body of
MainWindow._move_page_up; no-op when idx is 0 or out of range. -/
def movePageUp (d : DocumentModel) (idx : Nat) : DocumentModel :=
  if idx = 0 ∨ d.pages.length ≤ idx then d
  else
    { d with pages :=
        ((d.pages.set (idx - 1) (d.pages.getD idx default)).set idx
          (d.pages.getD (idx - 1) default)) }

/-- Swap of the adjacent pages at positions idx and idx+1, the body of
MainWindow._move_page_down; no-op when idx is the last page or out of
range. -/
def movePageDown (d : DocumentModel) (idx : Nat) : DocumentModel :=
  if d.pages.length ≤ idx + 1 then d
  else
    { d with pages :=
        ((d.pages.set (idx + 1) (d.pages.getD idx default)).set idx
          (d.pages.getD (idx + 1) default)) }

/-! Snap-and-drag engine: canvas.py, PageCanvas._compute_snap_guides.
A guide is an (orientation, coordinate) pair, orientation "v" or "h". -/

/-- Sibling matching on the x axis: the inner `for target in
other_positions` loop of _compute_snap_guides.  Each target is tested
against the current x (left edge) and then x + width (right edge); a
match rewrites x and appends a guide, and the loop continues with the
updated x. -/
def siblingLoopX (threshold : ℚ) (x width : ℚ) (targets : List ℚ)
    (guides : List (String × ℚ)) : ℚ × List (String × ℚ) :=
  match targets with
  | [] => (x, guides)
  | target :: rest =>
    if |x - target| < threshold then
      siblingLoopX threshold target width rest (guides ++ [("v", target)])
    else if |(x + width) - target| < threshold then
      siblingLoopX threshold (target - width) width rest (guides ++ [("v", target)])
    else
      siblingLoopX threshold x width rest guides

/-- Sibling matching on the y axis, mirroring `siblingLoopX`. -/
def siblingLoopY (threshold : ℚ) (y height : ℚ) (targets : List ℚ)
    (guides : List (String × ℚ)) : ℚ × List (String × ℚ) :=
  match targets with
  | [] => (y, guides)
  | target :: rest =>
    if |y - target| < threshold then
      siblingLoopY threshold target height rest (guides ++ [("h", target)])
    else if |(y + height) - target| < threshold then
      siblingLoopY threshold (target - height) height rest (guides ++ [("h", target)])
    else
      siblingLoopY threshold y height rest guides

/-- The outer `for element in page.elements` loop of
_compute_snap_guides: skip the dragged element and invisible elements,
otherwise run the x-axis matching against the sibling's left, center
and right, then the y-axis matching against its top, middle and
bottom. -/
def siblingElementsLoop (threshold : ℚ) (element_id : String) (width height : ℚ)
    (elems : List Element) (x y : ℚ) (guides : List (String × ℚ)) :
    ℚ × ℚ × List (String × ℚ) :=
  match elems with
  | [] => (x, y, guides)
  | e :: rest =>
    if e.id = element_id then
      siblingElementsLoop threshold element_id width height rest x y guides
    else if e.visible = false then
      siblingElementsLoop threshold element_id width height rest x y guides
    else
      let rx := siblingLoopX threshold x width
        [e.rect.x, e.rect.x + e.rect.width / 2, e.rect.x + e.rect.width] guides
      let ry := siblingLoopY threshold y height
        [e.rect.y, e.rect.y + e.rect.height / 2, e.rect.y + e.rect.height] rx.2
      siblingElementsLoop threshold element_id width height rest rx.1 ry.1 ry.2

/-- Page-level snapping of the x coordinate with its guides: the
if/elif/elif chain of _compute_snap_guides over element-center against
page-center, left edge against 0, and right edge against the page
width. -/
def pageSnapPairX (pageWidth x width : ℚ) : ℚ × List (String × ℚ) :=
  if |(x + width / 2) - pageWidth / 2| < 6 then
    (pageWidth / 2 - width / 2, [(("v" : String), pageWidth / 2)])
  else if |x| < 6 then
    ((0 : ℚ), [(("v" : String), (0 : ℚ))])
  else if |(x + width) - pageWidth| < 6 then
    (pageWidth - width, [(("v" : String), pageWidth)])
  else (x, [])

/-- Page-level snapping of the y coordinate, appending its guides after
the x guides. -/
def pageSnapPairY (pageHeight y height : ℚ) (guides : List (String × ℚ)) :
    ℚ × List (String × ℚ) :=
  if |(y + height / 2) - pageHeight / 2| < 6 then
    (pageHeight / 2 - height / 2, guides ++ [(("h" : String), pageHeight / 2)])
  else if |y| < 6 then
    ((0 : ℚ), guides ++ [(("h" : String), (0 : ℚ))])
  else if |(y + height) - pageHeight| < 6 then
    (pageHeight - height, guides ++ [(("h" : String), pageHeight)])
  else (y, guides)

/-- PageCanvas._compute_snap_guides: page-level snapping per axis
(center, then near edge, then far edge, as an if/elif/elif chain),
followed unconditionally by the sibling-element loop, all with the
fixed threshold 6. -/
def compute_snap_guides (page : PageModel) (element_id : String)
    (x y width height : ℚ) : ℚ × ℚ × List (String × ℚ) :=
  let px := pageSnapPairX page.width x width
  let py := pageSnapPairY page.height y height px.2
  siblingElementsLoop 6 element_id width height page.elements px.1 py.1 py.2

/-! Export adapter: pdf_io.py, PdfExporter.export and
PdfExporter._color_to_rgb.  The external PDF library is abstracted as a
trace of draw calls per page; an image draw call records the element's
bytes and opacity (the inputs from which _prepare_image_stream computes
the embedded stream via the external imaging library). -/

/-- Whitespace as recognized by Python's int() parsing (the ASCII
whitespace characters). -/
def isPyWhitespace (c : Char) : Bool :=
  c = ' ' || c = '\t' || c = '\n' || c = '\x0d' || c = '\x0b' || c = '\x0c'

/-- Value of a hexadecimal digit character, none for non-digits; the
code points are 48-57 for '0'-'9', 97-102 for 'a'-'f', 65-70 for
'A'-'F'. -/
def hexDigitVal (c : Char) : Option Nat :=
  if 48 ≤ c.toNat ∧ c.toNat ≤ 57 then some (c.toNat - 48)
  else if 97 ≤ c.toNat ∧ c.toNat ≤ 102 then some (c.toNat - 97 + 10)
  else if 65 ≤ c.toNat ∧ c.toNat ≤ 70 then some (c.toNat - 65 + 10)
  else none

/-- Python's int(s, 16) specialised to the 2-character slices taken by
_color_to_rgb: two hex digits give the byte value; a sign or a single
whitespace character next to one hex digit is also accepted by Python
(int(\x7b\x7d, 16) allows surrounding whitespace and a leading sign);
everything else raises ValueError, modelled as none. -/
def pyIntHex2 (c0 c1 : Char) : Option Int :=
  match hexDigitVal c0, hexDigitVal c1 with
  | some v0, some v1 => some (16 * v0 + v1)
  | some v0, none => if isPyWhitespace c1 then some (v0 : Int) else none
  | none, some v1 =>
    if c0 = '+' then some (v1 : Int)
    else if c0 = '-' then some (-(v1 : Int))
    else if isPyWhitespace c0 then some (v1 : Int)
    else none
  | none, none => none

/-- Python str.lstrip("#"): drops every leading '#'. -/
def lstripHash : List Char → List Char
  | '#' :: rest => lstripHash rest
  | l => l

/-- PdfExporter._color_to_rgb: strip leading '#'s; a stripped string
whose length is not 6 yields black; otherwise the three 2-character
slices are parsed as hex bytes and scaled by 255, a parse failure
raising ValueError (modelled as `Except.error`). -/
def color_to_rgb (color : String) : Except String (ℚ × ℚ × ℚ) :=
  let c := lstripHash color.data
  if c.length ≠ 6 then Except.ok (0, 0, 0)
  else
    match pyIntHex2 (c.getD 0 ' ') (c.getD 1 ' '),
        pyIntHex2 (c.getD 2 ' ') (c.getD 3 ' '),
        pyIntHex2 (c.getD 4 ' ') (c.getD 5 ' ') with
    | some r, some g, some b =>
      Except.ok ((r : ℚ) / 255, (g : ℚ) / 255, (b : ℚ) / 255)
    | _, _, _ => Except.error "ValueError"

/-- One drawing operation issued against an output page during export. -/
inductive DrawCall where
  | showPdfPage (sourceIndex : Nat) : DrawCall
  | insertImage (rect : ℚ × ℚ × ℚ × ℚ) (imageBytes : List Nat) (opacity : ℚ) : DrawCall
  | insertTextbox (rect : ℚ × ℚ × ℚ × ℚ) (text : String) (fontsize : ℚ)
      (color : ℚ × ℚ × ℚ) : DrawCall
deriving DecidableEq, Repr

/-- The fitz.Rect(x, y, x + width, y + height) built for each drawn
element. -/
def fitzRectOf (r : Rect) : ℚ × ℚ × ℚ × ℚ := (r.x, r.y, r.x + r.width, r.y + r.height)

/-- The `for element in page_model.elements` loop of PdfExporter.export:
image elements are skipped when invisible, drawn when their byte buffer
is non-empty; text elements are skipped when invisible, otherwise their
color is decoded (a ValueError propagates) and a textbox is drawn; base
elements match neither isinstance test and draw nothing. -/
def exportElementsLoop : List Element → Except String (List DrawCall)
  | [] => Except.ok []
  | e :: rest =>
    match e.kind with
    | ElementKind.image _ ib =>
      if e.visible = false then exportElementsLoop rest
      else if ib.isEmpty then exportElementsLoop rest
      else
        (exportElementsLoop rest).map
          (fun calls => DrawCall.insertImage (fitzRectOf e.rect) ib e.opacity :: calls)
    | ElementKind.text t _ fs c =>
      if e.visible = false then exportElementsLoop rest
      else
        match color_to_rgb c with
        | Except.error msg => Except.error msg
        | Except.ok col =>
          (exportElementsLoop rest).map
            (fun calls => DrawCall.insertTextbox (fitzRectOf e.rect) t fs col :: calls)
    | ElementKind.base => exportElementsLoop rest

/-- Export of a single page: the optional source-page stamp followed by
the element draw calls in element-list order. -/
def exportPage (page : PageModel) : Except String (List DrawCall) :=
  let base :=
    match page.sourceIndex with
    | some i => [DrawCall.showPdfPage i]
    | none => []
  (exportElementsLoop page.elements).map (fun calls => base ++ calls)

/-- PdfExporter.export over the whole document: the per-page draw-call
traces in page order (the first raised error aborts the export). -/
def exportDocument (d : DocumentModel) : Except String (List (List DrawCall)) :=
  d.pages.mapM exportPage

/-! Object-store model of element mutation.  Python element objects and
their Rect objects live on a heap and are aliased by reference; to
state clone isolation we model a store of Rect objects and element
records, each element holding a reference to its Rect.  clone_element
builds a fresh Rect (a new allocation) for the copy, which is exactly
what makes the clone detached. -/

/-- An element object in the store: the shared scalar fields plus the
variant payload, with the mutable Rect held by reference. -/
structure ElemRec where
  id : String
  rectRef : Nat
  rotation : ℚ
  opacity : ℚ
  locked : Bool
  visible : Bool
  kind : ElementKind
deriving DecidableEq, Repr

instance : Inhabited ElemRec :=
  ⟨{ id := "", rectRef := 0, rotation := 0, opacity := 1, locked := false,
     visible := true, kind := ElementKind.base }⟩

/-- The heap: allocated Rect objects and element objects, referenced by
position. -/
structure Store where
  rects : List Rect
  elems : List ElemRec
deriving DecidableEq, Repr

/-- Rect object behind a reference. -/
def Store.rectAt (s : Store) (r : Nat) : Rect := s.rects.getD r default

/-- Element object behind a reference. -/
def Store.elemAt (s : Store) (i : Nat) : ElemRec := s.elems.getD i default

/-- clone_element in the store model: read the element and its Rect,
allocate a fresh Rect built from the four rect fields, and allocate a
new element object copying the shared fields and the variant payload
(the same three-way dispatch as the source), pointing at the fresh
Rect.  Returns the store and the reference of the clone. -/
def cloneElementRef (s : Store) (i : Nat) : Store × Nat :=
  let e := s.elemAt i
  let r := s.rectAt e.rectRef
  let rect : Rect := ⟨r.x, r.y, r.width, r.height⟩
  let newRectRef := s.rects.length
  let c : ElemRec :=
    match e.kind with
    | ElementKind.image sp ib =>
      { id := e.id, rectRef := newRectRef, rotation := e.rotation,
        opacity := e.opacity, locked := e.locked, visible := e.visible,
        kind := ElementKind.image sp ib }
    | ElementKind.text t ff fs col =>
      { id := e.id, rectRef := newRectRef, rotation := e.rotation,
        opacity := e.opacity, locked := e.locked, visible := e.visible,
        kind := ElementKind.text t ff fs col }
    | ElementKind.base =>
      { id := e.id, rectRef := newRectRef, rotation := e.rotation,
        opacity := e.opacity, locked := e.locked, visible := e.visible,
        kind := ElementKind.base }
  (⟨s.rects ++ [rect], s.elems ++ [c]⟩, s.elems.length)

/-- Element.move_to in the store model: writes x and y through the
element's Rect reference. -/
def moveToRef (s : Store) (i : Nat) (x y : ℚ) : Store :=
  let e := s.elemAt i
  let r := s.rectAt e.rectRef
  { s with rects := s.rects.set e.rectRef { r with x := x, y := y } }

/-- Element.resize in the store model: writes the clamped width and
height through the element's Rect reference. -/
def resizeRef (s : Store) (i : Nat) (width height : ℚ) : Store :=
  let e := s.elemAt i
  let r := s.rectAt e.rectRef
  { s with rects := (s.rects.set e.rectRef
      { r with width := max 1 width, height := max 1 height }) }

/-- Reassignment of the image_bytes attribute of an element object (a
per-object field write; Python byte strings themselves are immutable,
so replacing the buffer is the only possible byte-buffer mutation). -/
def setImageBytesRef (s : Store) (i : Nat) (b : List Nat) : Store :=
  let e := s.elemAt i
  let k :=
    match e.kind with
    | ElementKind.image sp _ => ElementKind.image sp b
    | other => other
  { s with elems := s.elems.set i { e with kind := k } }

/-! Shared helper lemmas. -/

/-- When no element matches, removeFirstById leaves the list unchanged. -/
theorem removeFirstById_none (es : List Element) (eid : String)
    (h : (removeFirstById es eid).1 = none) : (removeFirstById es eid).2 = es := by
  induction es with
  | nil => rfl
  | cons e rest ih =>
    by_cases he : e.id = eid
    · simp [removeFirstById, he] at h
    · simp only [removeFirstById, he, if_neg, ite_false] at h ⊢
      simp_all

/-- A successful removeFirstById returns an element of the list with
the requested id, and shortens the list by one. -/
theorem removeFirstById_some (es : List Element) (eid : String) (e : Element)
    (h : (removeFirstById es eid).1 = some e) :
    e.id = eid ∧ e ∈ es ∧ (removeFirstById es eid).2.length + 1 = es.length := by
  induction es with
  | nil => simp [removeFirstById] at h
  | cons a rest ih =>
    by_cases ha : a.id = eid
    · simp only [removeFirstById, ha, ite_true] at h ⊢
      cases h
      simp [ha]
    · simp only [removeFirstById, ha, ite_false] at h ⊢
      rcases ih h with ⟨h1, h2, h3⟩
      simp_all

/-- Removing a freshly appended element (whose id occurs nowhere else)
finds exactly that element and restores the original list. -/
theorem removeFirstById_concat_fresh (es : List Element) (E : Element)
    (h : E.id ∉ es.map Element.id) :
    removeFirstById (es ++ [E]) E.id = (some E, es) := by
  induction es with
  | nil => simp [removeFirstById]
  | cons a rest ih =>
    simp only [List.map_cons, List.mem_cons] at h
    push_neg at h
    have ha : ¬(a.id = E.id) := fun hx => h.1 hx.symm
    simp only [List.cons_append, removeFirstById, ha, ite_false]
    rw [show removeFirstById (rest.append [E]) E.id = (some E, rest) from ih h.2]

/-- Finding a page after rewriting the first page with a matching uid:
when the rewrite preserves the uid, the found page is the image of the
originally found page. -/
theorem find_updateFirstPage (ps : List PageModel) (pid : String)
    (f : PageModel → PageModel) (hf : ∀ p, (f p).uid = p.uid) :
    (updateFirstPage ps pid f).find? (fun p => p.uid = pid)
      = (ps.find? (fun p => p.uid = pid)).map f := by
  induction ps with
  | nil => rfl
  | cons p rest ih =>
    by_cases hp : p.uid = pid
    · simp [updateFirstPage, List.find?_cons, hp, hf]
    · simp [updateFirstPage, List.find?_cons, hp, ih]

/-- getD of a set at a different index. -/
theorem getD_set_ne {α : Type} (l : List α) (i k : Nat) (a d : α) (h : i ≠ k) :
    (l.set i a).getD k d = l.getD k d := by
  simp [List.getD_eq_getElem?_getD, List.getElem?_set_ne h]

/-- getD just past an appended singleton. -/
theorem getD_concat_length {α : Type} (l : List α) (a d : α) :
    (l ++ [a]).getD l.length d = a := by
  simp [List.getD_append_right]

/-! Claim C10: unclamped move. -/

/-- C10: move_to(x, y) writes exactly the given coordinates — negative
or out-of-page values included, with no clamping — and leaves the
size and every other element field unchanged; resize, in contrast,
clamps each dimension below by 1.0. -/
theorem move_to_unclamped (e : Element) (x y w h : ℚ) :
    (e.move_to x y).rect.x = x ∧ (e.move_to x y).rect.y = y ∧
    (e.move_to x y).rect.width = e.rect.width ∧
    (e.move_to x y).rect.height = e.rect.height ∧
    (e.move_to x y).id = e.id ∧ (e.move_to x y).rotation = e.rotation ∧
    (e.move_to x y).opacity = e.opacity ∧ (e.move_to x y).locked = e.locked ∧
    (e.move_to x y).visible = e.visible ∧ (e.move_to x y).kind = e.kind ∧
    (e.resize w h).rect.width = max 1 w ∧ (e.resize w h).rect.height = max 1 h :=
  ⟨rfl, rfl, rfl, rfl, rfl, rfl, rfl, rfl, rfl, rfl, rfl, rfl⟩

/-! Claim C4: linear history. -/

/-- C4: push_history stores a clone of the element carrying exactly the
field values it had at the moment of the action, appends exactly one
command to the undo stack (leaving the earlier commands in place), and
clears the redo stack; the open document is untouched. -/
theorem push_history_linear (s : MainWindowState) (action page_id : String)
    (e : Element) :
    (push_history s action page_id e).redoStack = [] ∧
    (push_history s action page_id e).undoStack
      = s.undoStack ++ [⟨action, page_id, clone_element e⟩] ∧
    (push_history s action page_id e).undoStack.length = s.undoStack.length + 1 ∧
    clone_element e = e ∧
    (push_history s action page_id e).document = s.document :=
  ⟨rfl, rfl, by simp [push_history], clone_element_eq_self e, rfl⟩

/-! Claim C3: silent not-found removal. -/

/-- Range characterisation of the normalized Python index. -/
theorem pyIndex_range_iff (i : Int) (n : Nat) :
    (0 ≤ pyIndex i n ∧ pyIndex i n < (n : Int)) ↔ (-(n : Int) ≤ i ∧ i < (n : Int)) := by
  unfold pyIndex
  split <;> omega

/-- Auxiliary: Except.map preserves success. -/
theorem except_map_isOk {ε α β : Type} (f : α → β) (x : Except ε α) :
    (x.map f).isOk = x.isOk := by
  cases x <;> rfl

/-- pyPop succeeds exactly on in-range indices (negative ones counting
from the end). -/
theorem pyPop_isOk_iff {α : Type} (l : List α) (i : Int) :
    (pyPop l i).isOk = true ↔ (-(l.length : Int) ≤ i ∧ i < (l.length : Int)) := by
  unfold pyPop
  by_cases hr : 0 ≤ pyIndex i l.length ∧ pyIndex i l.length < (l.length : Int)
  · cases hd : l.drop (pyIndex i l.length).toNat with
    | nil =>
      rw [List.drop_eq_nil_iff] at hd
      exfalso
      omega
    | cons a rest =>
      rw [if_pos hr]
      exact ⟨fun _ => (pyIndex_range_iff i l.length).1 hr, fun _ => rfl⟩
  · rw [if_neg hr]
    constructor
    · intro hc; exact absurd hc (by simp [Except.isOk, Except.toBool])
    · intro hc; exact absurd ((pyIndex_range_iff i l.length).2 hc) hr

/-- A successful pyPop returns a member of the list and shortens it by
one, and the remainder is made of members of the original list. -/
theorem pyPop_ok_spec {α : Type} (l : List α) (i : Int) (a : α) (rest : List α)
    (h : pyPop l i = Except.ok (a, rest)) :
    a ∈ l ∧ rest.length + 1 = l.length ∧ ∀ x ∈ rest, x ∈ l := by
  unfold pyPop at h
  by_cases hr : 0 ≤ pyIndex i l.length ∧ pyIndex i l.length < (l.length : Int)
  · rw [if_pos hr] at h
    cases hd : l.drop (pyIndex i l.length).toNat with
    | nil => rw [hd] at h; exact absurd h (by simp)
    | cons b tl =>
      rw [hd] at h
      simp only [Except.ok.injEq, Prod.mk.injEq] at h
      obtain ⟨hb, hrest⟩ := h
      have hmem : b ∈ l.drop (pyIndex i l.length).toNat := by
        rw [hd]; exact List.mem_cons_self b tl
      have hlen := congrArg List.length hd
      simp only [List.length_drop, List.length_cons] at hlen
      have hk : (pyIndex i l.length).toNat ≤ l.length := by omega
      refine ⟨hb ▸ List.mem_of_mem_drop hmem, ?_, ?_⟩
      · rw [← hrest]
        simp only [List.length_append, List.length_take]
        omega
      · intro x hx
        rw [← hrest] at hx
        rcases List.mem_append.1 hx with hx | hx
        · exact List.mem_of_mem_take hx
        · exact List.mem_of_mem_drop (by rw [hd]; exact List.mem_cons_of_mem b hx)
  · rw [if_neg hr] at h
    exact absurd h (by simp)

/-- Formalisation of claim C3 as stated: removal by a missing key is a
silent no-op, so in particular remove_page never raises. -/
def removeNeverRaisesClaim : Prop :=
  ∀ (d : DocumentModel) (index : Int), (d.remove_page index).isOk = true

/-- C3 counterexample: remove_page(0) on a document with no pages
raises IndexError (list.pop of an out-of-range index), so the removal
operations are not uniformly silent on not-found inputs. -/
theorem remove_page_raises_counterexample : ¬ removeNeverRaisesClaim := fun h =>
  absurd (h ⟨"doc", []⟩ 0) (by decide)

/-- C3 amended: remove_element returns the removed element when the id
is present (shrinking the list by one) and is a silent no-op returning
none when it is absent; remove_page, which takes an array index rather
than an id, returns the removed page for an in-range index (negative
indices counting from the end) and raises IndexError for an
out-of-range index. -/
theorem remove_silent_amended (p : PageModel) (eid : String) (d : DocumentModel)
    (i : Int) :
    ((p.remove_element eid).1 = none → (p.remove_element eid).2 = p) ∧
    (∀ e, (p.remove_element eid).1 = some e →
      e.id = eid ∧ e ∈ p.elements ∧
      (p.remove_element eid).2.elements.length + 1 = p.elements.length) ∧
    ((d.remove_page i).isOk = true ↔
      (-(d.pages.length : Int) ≤ i ∧ i < (d.pages.length : Int))) ∧
    (∀ pg rest, d.remove_page i = Except.ok (pg, rest) →
      pg ∈ d.pages ∧ rest.pages.length + 1 = d.pages.length) := by
  refine ⟨?_, ?_, ?_, ?_⟩
  · intro h
    have h2 := removeFirstById_none p.elements eid h
    show ({ p with elements := (removeFirstById p.elements eid).2 } : PageModel) = p
    rw [h2]
  · intro e he
    exact removeFirstById_some p.elements eid e he
  · unfold DocumentModel.remove_page
    rw [except_map_isOk]
    exact pyPop_isOk_iff d.pages i
  · intro pg rest h
    unfold DocumentModel.remove_page at h
    cases hp : pyPop d.pages i with
    | error msg => rw [hp] at h; exact absurd h (by simp [Except.map])
    | ok r =>
      rw [hp] at h
      simp only [Except.map, Except.ok.injEq, Prod.mk.injEq] at h
      obtain ⟨h1, h2⟩ := h
      rcases pyPop_ok_spec d.pages i r.1 r.2 hp with ⟨hm, hl, _⟩
      constructor
      · rw [← h1]; exact hm
      · have hpages : rest.pages = r.2 := by rw [← h2]
        rw [hpages]; exact hl

/-- Concrete page and document used by witnesses. -/
def pwPage : PageModel :=
  { width := 595, height := 842, uid := "pw",
    elements := [{ id := "e1", rect := ⟨0, 0, 10, 10⟩ }] }

def dwDoc : DocumentModel := { sourcePath := "doc.pdf", pages := [pwPage] }

/-- Witness for the amended C3 at concrete inputs. -/
theorem remove_silent_amended_witness :
    (pwPage.remove_element "absent").2 = pwPage ∧
    ((dwDoc.remove_page 0).isOk = true ↔
      (-(dwDoc.pages.length : Int) ≤ 0 ∧ (0 : Int) < (dwDoc.pages.length : Int))) :=
  ⟨(remove_silent_amended pwPage "absent" dwDoc 0).1 (by decide),
   (remove_silent_amended pwPage "absent" dwDoc 0).2.2.1⟩

/-! Claim C6: export color decoding. -/

/-- Hex digit values are at most 15. -/
theorem hexDigitVal_le_15 (c : Char) (v : Nat) (h : hexDigitVal c = some v) :
    v ≤ 15 := by
  unfold hexDigitVal at h
  split_ifs at h <;> simp_all <;> omega

/-- Both characters being hex digits makes pyIntHex2 return the byte
value. -/
theorem pyIntHex2_digits (c0 c1 : Char) (v0 v1 : Nat)
    (h0 : hexDigitVal c0 = some v0) (h1 : hexDigitVal c1 = some v1) :
    pyIntHex2 c0 c1 = some ((16 * v0 + v1 : Nat) : Int) := by
  unfold pyIntHex2
  rw [h0, h1]
  push_cast
  ring_nf

/-- Formalisation of claim C6 as stated: decoding never raises (valid
strings decode, malformed ones fall back to black). -/
def colorFallbackClaim : Prop := ∀ s : String, (color_to_rgb s).isOk = true

/-- C6 counterexample: the 6-character non-hex color "zzzzzz" passes
the length check and then raises ValueError from int(.., 16) instead
of falling back to black. -/
theorem color_fallback_counterexample : ¬ colorFallbackClaim := fun h =>
  absurd (h "zzzzzz") (by decide)

/-- C6 amended: after stripping every leading '#', a string whose
length is not 6 falls back to black; a 6-character string made of hex
digits decodes to the byte values scaled by 255, each component lying
in [0, 1]; (a 6-character string with a non-hex pair instead raises
ValueError, as the counterexample shows). -/
theorem color_to_rgb_amended (s : String) :
    ((lstripHash s.data).length ≠ 6 → color_to_rgb s = Except.ok (0, 0, 0)) ∧
    (∀ c0 c1 c2 c3 c4 c5 : Char, ∀ v0 v1 v2 v3 v4 v5 : Nat,
      lstripHash s.data = [c0, c1, c2, c3, c4, c5] →
      hexDigitVal c0 = some v0 → hexDigitVal c1 = some v1 →
      hexDigitVal c2 = some v2 → hexDigitVal c3 = some v3 →
      hexDigitVal c4 = some v4 → hexDigitVal c5 = some v5 →
      color_to_rgb s = Except.ok
        (((16 * v0 + v1 : Nat) : ℚ) / 255, ((16 * v2 + v3 : Nat) : ℚ) / 255,
          ((16 * v4 + v5 : Nat) : ℚ) / 255) ∧
      (0 ≤ ((16 * v0 + v1 : Nat) : ℚ) / 255 ∧ ((16 * v0 + v1 : Nat) : ℚ) / 255 ≤ 1) ∧
      (0 ≤ ((16 * v2 + v3 : Nat) : ℚ) / 255 ∧ ((16 * v2 + v3 : Nat) : ℚ) / 255 ≤ 1) ∧
      (0 ≤ ((16 * v4 + v5 : Nat) : ℚ) / 255 ∧ ((16 * v4 + v5 : Nat) : ℚ) / 255 ≤ 1)) := by
  constructor
  · intro hlen
    unfold color_to_rgb
    rw [if_pos hlen]
  · intro c0 c1 c2 c3 c4 c5 v0 v1 v2 v3 v4 v5 hc h0 h1 h2 h3 h4 h5
    refine ⟨?_, ?_, ?_, ?_⟩
    · unfold color_to_rgb
      rw [hc]
      rw [if_neg (by simp)]
      simp only [List.getD]
      rw [show (([c0, c1, c2, c3, c4, c5].get? 0).getD ' ') = c0 from rfl,
        show (([c0, c1, c2, c3, c4, c5].get? 1).getD ' ') = c1 from rfl,
        show (([c0, c1, c2, c3, c4, c5].get? 2).getD ' ') = c2 from rfl,
        show (([c0, c1, c2, c3, c4, c5].get? 3).getD ' ') = c3 from rfl,
        show (([c0, c1, c2, c3, c4, c5].get? 4).getD ' ') = c4 from rfl,
        show (([c0, c1, c2, c3, c4, c5].get? 5).getD ' ') = c5 from rfl]
      rw [pyIntHex2_digits c0 c1 v0 v1 h0 h1, pyIntHex2_digits c2 c3 v2 v3 h2 h3,
        pyIntHex2_digits c4 c5 v4 v5 h4 h5]
      push_cast
      rfl
    · constructor
      · positivity
      · rw [div_le_one (by norm_num)]
        have b0 := hexDigitVal_le_15 c0 v0 h0
        have b1 := hexDigitVal_le_15 c1 v1 h1
        have : (16 * v0 + v1 : Nat) ≤ 255 := by omega
        exact_mod_cast this
    · constructor
      · positivity
      · rw [div_le_one (by norm_num)]
        have b2 := hexDigitVal_le_15 c2 v2 h2
        have b3 := hexDigitVal_le_15 c3 v3 h3
        have : (16 * v2 + v3 : Nat) ≤ 255 := by omega
        exact_mod_cast this
    · constructor
      · positivity
      · rw [div_le_one (by norm_num)]
        have b4 := hexDigitVal_le_15 c4 v4 h4
        have b5 := hexDigitVal_le_15 c5 v5 h5
        have : (16 * v4 + v5 : Nat) ≤ 255 := by omega
        exact_mod_cast this

/-- Witness for the amended C6: "#1a2B3c" decodes to (26, 43, 60)
scaled by 255. -/
theorem color_to_rgb_amended_witness :
    color_to_rgb "#1a2B3c"
      = Except.ok ((26 : ℚ) / 255, (43 : ℚ) / 255, (60 : ℚ) / 255) := by
  have h := ((color_to_rgb_amended "#1a2B3c").2 '1' 'a' '2' 'B' '3' 'c'
    1 10 2 11 3 12 (by decide) (by decide) (by decide) (by decide)
    (by decide) (by decide) (by decide)).1
  norm_num at h ⊢
  exact h

/-! Claim C5: export visibility filter. -/

/-- Drawing of a list of elements with no visibility test, following
the spec's wording that every (visible) image/text element is drawn in
ascending element-list order; compared below with the source loop
applied to the visible sublist. -/
def drawVisibleCalls : List Element → Except String (List DrawCall)
  | [] => Except.ok []
  | e :: rest =>
    match e.kind with
    | ElementKind.image _ ib =>
      if ib.isEmpty then drawVisibleCalls rest
      else
        (drawVisibleCalls rest).map
          (fun calls => DrawCall.insertImage (fitzRectOf e.rect) ib e.opacity :: calls)
    | ElementKind.text t _ fs c =>
      match color_to_rgb c with
      | Except.error msg => Except.error msg
      | Except.ok col =>
        (drawVisibleCalls rest).map
          (fun calls => DrawCall.insertTextbox (fitzRectOf e.rect) t fs col :: calls)
    | ElementKind.base => drawVisibleCalls rest

/-- C5: the export element loop draws exactly the visible elements, in
ascending element-list order — it equals the visibility-free drawing of
the visible sublist — and inserting an element with visible = false
anywhere changes no draw call, whatever its geometry. -/
theorem export_visibility_filter :
    (∀ es : List Element,
      exportElementsLoop es = drawVisibleCalls (es.filter (fun e => e.visible))) ∧
    (∀ (pre post : List Element) (e : Element), e.visible = false →
      exportElementsLoop (pre ++ e :: post) = exportElementsLoop (pre ++ post)) := by
  have hfilter : ∀ es : List Element,
      exportElementsLoop es = drawVisibleCalls (es.filter (fun e => e.visible)) := by
    intro es
    induction es with
    | nil => rfl
    | cons e rest ih =>
      obtain ⟨eid, erect, erot, eop, elk, evis, ekind⟩ := e
      cases evis with
      | false =>
        cases ekind with
        | base => exact ih
        | image sp ib => exact ih
        | text t ff fs c => exact ih
      | true =>
        cases ekind with
        | base => exact ih
        | image sp ib =>
          show (if ib.isEmpty then exportElementsLoop rest
              else (exportElementsLoop rest).map
                (fun calls => DrawCall.insertImage (fitzRectOf erect) ib eop :: calls))
            = (if ib.isEmpty then drawVisibleCalls (rest.filter (fun e => e.visible))
              else (drawVisibleCalls (rest.filter (fun e => e.visible))).map
                (fun calls => DrawCall.insertImage (fitzRectOf erect) ib eop :: calls))
          rw [ih]
        | text t ff fs c =>
          show (match color_to_rgb c with
              | Except.error msg => Except.error msg
              | Except.ok col =>
                (exportElementsLoop rest).map
                  (fun calls => DrawCall.insertTextbox (fitzRectOf erect) t fs col :: calls))
            = (match color_to_rgb c with
              | Except.error msg => Except.error msg
              | Except.ok col =>
                (drawVisibleCalls (rest.filter (fun e => e.visible))).map
                  (fun calls => DrawCall.insertTextbox (fitzRectOf erect) t fs col :: calls))
          rw [ih]
  constructor
  · exact hfilter
  · intro pre post e hv
    rw [hfilter (pre ++ e :: post), hfilter (pre ++ post)]
    rw [List.filter_append, List.filter_append, List.filter_cons]
    simp [hv]

/-- Witness for C5: an invisible text element with large geometry
produces no draw call. -/
theorem export_visibility_filter_witness :
    exportElementsLoop
        [{ id := "t", rect := ⟨-50, 900, 400, 400⟩, visible := false,
           kind := ElementKind.text "hi" "Noto Sans" 14 "#000000" }]
      = exportElementsLoop [] :=
  export_visibility_filter.2 [] []
    { id := "t", rect := ⟨-50, 900, 400, 400⟩, visible := false,
      kind := ElementKind.text "hi" "Noto Sans" 14 "#000000" } rfl

/-! Claim C7: page identity stability. -/

/-- Membership of a getD at an in-range index. -/
theorem getD_mem_of_lt {α : Type} (l : List α) (n : Nat) (d : α)
    (h : n < l.length) : l.getD n d ∈ l := by
  induction l generalizing n with
  | nil => simp at h
  | cons a t ih =>
    cases n with
    | zero => exact List.mem_cons_self a t
    | succ m => exact List.mem_cons_of_mem a (ih m (by simpa using h))

/-- One page-level structural operation of the editor: the four entry
points the claim ranges over (insert_page, append_page, remove_page,
and the two adjacent-swap reorders of MainWindow). -/
inductive PageOp where
  | insert (index : Int) (page : PageModel) : PageOp
  | append (page : PageModel) : PageOp
  | remove (index : Int) : PageOp
  | moveUp (idx : Nat) : PageOp
  | moveDown (idx : Nat) : PageOp
deriving DecidableEq, Repr

/-- Effect of one page operation on the document (a raised IndexError
from remove leaves the document unchanged, since list.pop checks the
range before mutating). -/
def applyPageOp (d : DocumentModel) : PageOp → DocumentModel
  | PageOp.insert i q => d.insert_page i q
  | PageOp.append q => d.append_page q
  | PageOp.remove i =>
    match d.remove_page i with
    | Except.ok r => r.2
    | Except.error _ => d
  | PageOp.moveUp idx => movePageUp d idx
  | PageOp.moveDown idx => movePageDown d idx

/-- A whole sequence of page operations, applied left to right. -/
def applyPageOps (d : DocumentModel) (ops : List PageOp) : DocumentModel :=
  ops.foldl applyPageOp d

/-- The pages an operation itself introduces into the document. -/
def opIntroduces : PageOp → PageModel → Prop
  | PageOp.insert _ q, p => q = p
  | PageOp.append q, p => q = p
  | _, _ => False

/-- Every page present after one operation was already present or was
introduced by the operation (as the very same value, uid included). -/
theorem mem_applyPageOp (d : DocumentModel) (op : PageOp) (p : PageModel)
    (hp : p ∈ (applyPageOp d op).pages) :
    p ∈ d.pages ∨ opIntroduces op p := by
  cases op with
  | insert i q =>
    simp only [applyPageOp, DocumentModel.insert_page, pyInsert] at hp
    rcases List.mem_append.1 hp with h | h
    · exact Or.inl (List.mem_of_mem_take h)
    · rcases List.mem_cons.1 h with h | h
      · exact Or.inr h.symm
      · exact Or.inl (List.mem_of_mem_drop h)
  | append q =>
    simp only [applyPageOp, DocumentModel.append_page] at hp
    rcases List.mem_append.1 hp with h | h
    · exact Or.inl h
    · exact Or.inr (List.mem_singleton.1 h).symm
  | remove i =>
    simp only [applyPageOp] at hp
    cases hq : d.remove_page i with
    | error msg => rw [hq] at hp; exact Or.inl hp
    | ok r =>
      rw [hq] at hp
      have hpy : pyPop d.pages i = Except.ok (r.1, r.2.pages) := by
        unfold DocumentModel.remove_page at hq
        cases hpp : pyPop d.pages i with
        | error msg => rw [hpp] at hq; exact absurd hq (by simp [Except.map])
        | ok r2 =>
          rw [hpp] at hq
          simp only [Except.map, Except.ok.injEq] at hq
          cases r2 with
          | mk a rest =>
            rw [← hq]
      rcases pyPop_ok_spec d.pages i r.1 r.2.pages hpy with ⟨_, _, hsub⟩
      exact Or.inl (hsub p hp)
  | moveUp idx =>
    simp only [applyPageOp, movePageUp] at hp
    by_cases hg : idx = 0 ∨ d.pages.length ≤ idx
    · rw [if_pos hg] at hp; exact Or.inl hp
    · rw [if_neg hg] at hp
      push_neg at hg
      have hlt : idx < d.pages.length := hg.2
      have hlt1 : idx - 1 < d.pages.length := by omega
      rcases List.mem_or_eq_of_mem_set hp with h | h
      · rcases List.mem_or_eq_of_mem_set h with h | h
        · exact Or.inl h
        · exact Or.inl (h ▸ getD_mem_of_lt d.pages idx default hlt)
      · exact Or.inl (h ▸ getD_mem_of_lt d.pages (idx - 1) default hlt1)
  | moveDown idx =>
    simp only [applyPageOp, movePageDown] at hp
    by_cases hg : d.pages.length ≤ idx + 1
    · rw [if_pos hg] at hp; exact Or.inl hp
    · rw [if_neg hg] at hp
      push_neg at hg
      have hlt : idx < d.pages.length := by omega
      have hlt1 : idx + 1 < d.pages.length := by omega
      rcases List.mem_or_eq_of_mem_set hp with h | h
      · rcases List.mem_or_eq_of_mem_set h with h | h
        · exact Or.inl h
        · exact Or.inl (h ▸ getD_mem_of_lt d.pages idx default hlt)
      · exact Or.inl (h ▸ getD_mem_of_lt d.pages (idx + 1) default hlt1)

/-- C7: after any sequence of page insert, append, remove and reorder
operations, every page of the resulting document is either one of the
original pages — the identical value, so in particular with its uid
unchanged — or a page introduced by one of the insert/append
operations; only array positions change. -/
theorem page_identity_stability (d : DocumentModel) (ops : List PageOp)
    (p : PageModel) (hp : p ∈ (applyPageOps d ops).pages) :
    p ∈ d.pages ∨ ∃ op ∈ ops, opIntroduces op p := by
  induction ops generalizing d with
  | nil => exact Or.inl hp
  | cons op rest ih =>
    rcases ih (applyPageOp d op) hp with h1 | ⟨op2, hop2, hintro⟩
    · rcases mem_applyPageOp d op p h1 with h2 | h2
      · exact Or.inl h2
      · exact Or.inr ⟨op, List.mem_cons_self op rest, h2⟩
    · exact Or.inr ⟨op2, List.mem_cons_of_mem op hop2, hintro⟩

/-- Second concrete page used by witnesses. -/
def pwPage2 : PageModel := { width := 595, height := 842, uid := "pw2" }

/-- Witness for C7: a surviving page of a concrete
insert/append/remove/reorder sequence is an original page or an
inserted one. -/
theorem page_identity_stability_witness :
    pwPage ∈ dwDoc.pages ∨
      ∃ op ∈ [PageOp.append pwPage2, PageOp.moveUp 1, PageOp.remove 0],
        opIntroduces op pwPage :=
  page_identity_stability dwDoc
    [PageOp.append pwPage2, PageOp.moveUp 1, PageOp.remove 0] pwPage (by decide)

/-! Claim C8: clone isolation in the store model. -/

/-- C8: cloning an element yields a detached copy with the same id and
the same value in every field, shared and kind-specific alike; after
the clone, moving, resizing or reassigning the byte buffer of either
object never changes the other, because the clone owns a freshly
allocated Rect and its own element record. -/
theorem clone_isolation (s : Store) (i : Nat)
    (hi : i < s.elems.length)
    (hr : (s.elemAt i).rectRef < s.rects.length) :
    ((cloneElementRef s i).1.elemAt (cloneElementRef s i).2).id = (s.elemAt i).id ∧
    ((cloneElementRef s i).1.elemAt (cloneElementRef s i).2).rotation
      = (s.elemAt i).rotation ∧
    ((cloneElementRef s i).1.elemAt (cloneElementRef s i).2).opacity
      = (s.elemAt i).opacity ∧
    ((cloneElementRef s i).1.elemAt (cloneElementRef s i).2).locked
      = (s.elemAt i).locked ∧
    ((cloneElementRef s i).1.elemAt (cloneElementRef s i).2).visible
      = (s.elemAt i).visible ∧
    ((cloneElementRef s i).1.elemAt (cloneElementRef s i).2).kind
      = (s.elemAt i).kind ∧
    (cloneElementRef s i).1.rectAt
        ((cloneElementRef s i).1.elemAt (cloneElementRef s i).2).rectRef
      = (cloneElementRef s i).1.rectAt ((cloneElementRef s i).1.elemAt i).rectRef ∧
    (∀ x y : ℚ,
      (moveToRef (cloneElementRef s i).1 (cloneElementRef s i).2 x y).rectAt
          (((cloneElementRef s i).1.elemAt i).rectRef)
        = (cloneElementRef s i).1.rectAt (((cloneElementRef s i).1.elemAt i).rectRef)) ∧
    (∀ x y : ℚ,
      (moveToRef (cloneElementRef s i).1 i x y).rectAt
          (((cloneElementRef s i).1.elemAt (cloneElementRef s i).2).rectRef)
        = (cloneElementRef s i).1.rectAt
            (((cloneElementRef s i).1.elemAt (cloneElementRef s i).2).rectRef)) ∧
    (∀ w h : ℚ,
      (resizeRef (cloneElementRef s i).1 (cloneElementRef s i).2 w h).rectAt
          (((cloneElementRef s i).1.elemAt i).rectRef)
        = (cloneElementRef s i).1.rectAt (((cloneElementRef s i).1.elemAt i).rectRef)) ∧
    (∀ w h : ℚ,
      (resizeRef (cloneElementRef s i).1 i w h).rectAt
          (((cloneElementRef s i).1.elemAt (cloneElementRef s i).2).rectRef)
        = (cloneElementRef s i).1.rectAt
            (((cloneElementRef s i).1.elemAt (cloneElementRef s i).2).rectRef)) ∧
    (∀ b : List Nat,
      (setImageBytesRef (cloneElementRef s i).1 (cloneElementRef s i).2 b).elemAt i
        = (cloneElementRef s i).1.elemAt i) ∧
    (∀ b : List Nat,
      (setImageBytesRef (cloneElementRef s i).1 i b).elemAt (cloneElementRef s i).2
        = (cloneElementRef s i).1.elemAt (cloneElementRef s i).2) := by
  have hclone_elem : (cloneElementRef s i).1.elemAt (cloneElementRef s i).2
      = { s.elemAt i with rectRef := s.rects.length } := by
    simp only [cloneElementRef, Store.elemAt]
    rw [getD_concat_length]
    cases hk : (s.elems.getD i default).kind <;> rfl
  have horig_elem : (cloneElementRef s i).1.elemAt i = s.elemAt i := by
    simp only [cloneElementRef, Store.elemAt]
    exact List.getD_append _ _ _ _ hi
  have hrects : (cloneElementRef s i).1.rects
      = s.rects ++ [⟨(s.rectAt (s.elemAt i).rectRef).x, (s.rectAt (s.elemAt i).rectRef).y,
          (s.rectAt (s.elemAt i).rectRef).width, (s.rectAt (s.elemAt i).rectRef).height⟩] :=
    rfl
  have hne_rect : (s.elemAt i).rectRef ≠ s.rects.length := Nat.ne_of_lt hr
  have hne_elem : i ≠ s.elems.length := Nat.ne_of_lt hi
  have hmove : ∀ (t : Store) (k : Nat) (x y : ℚ) (m : Nat), (t.elemAt k).rectRef ≠ m →
      (moveToRef t k x y).rectAt m = t.rectAt m := by
    intro t k x y m hne
    simp only [moveToRef, Store.rectAt]
    exact getD_set_ne _ _ _ _ _ hne
  have hresize : ∀ (t : Store) (k : Nat) (w h : ℚ) (m : Nat), (t.elemAt k).rectRef ≠ m →
      (resizeRef t k w h).rectAt m = t.rectAt m := by
    intro t k w h m hne
    simp only [resizeRef, Store.rectAt]
    exact getD_set_ne _ _ _ _ _ hne
  have hsetbytes : ∀ (t : Store) (k : Nat) (b : List Nat) (m : Nat), k ≠ m →
      (setImageBytesRef t k b).elemAt m = t.elemAt m := by
    intro t k b m hne
    simp only [setImageBytesRef, Store.elemAt]
    exact getD_set_ne _ _ _ _ _ hne
  have hcloneRef : ((cloneElementRef s i).1.elemAt (cloneElementRef s i).2).rectRef
      = s.rects.length := by rw [hclone_elem]
  have horigRef : ((cloneElementRef s i).1.elemAt i).rectRef = (s.elemAt i).rectRef := by
    rw [horig_elem]
  refine ⟨by rw [hclone_elem], by rw [hclone_elem], by rw [hclone_elem],
    by rw [hclone_elem], by rw [hclone_elem], by rw [hclone_elem],
    ?_, ?_, ?_, ?_, ?_, ?_, ?_⟩
  · rw [hcloneRef, horigRef]
    show (cloneElementRef s i).1.rects.getD s.rects.length default
      = (cloneElementRef s i).1.rects.getD (s.elemAt i).rectRef default
    rw [hrects, getD_concat_length, List.getD_append _ _ _ _ hr]
    rfl
  · intro x y
    rw [horigRef]
    exact hmove _ _ x y _ (by rw [hcloneRef]; exact (Ne.symm hne_rect))
  · intro x y
    rw [hcloneRef]
    exact hmove _ _ x y _ (by rw [horigRef]; exact hne_rect)
  · intro w h
    rw [horigRef]
    exact hresize _ _ w h _ (by rw [hcloneRef]; exact (Ne.symm hne_rect))
  · intro w h
    rw [hcloneRef]
    exact hresize _ _ w h _ (by rw [horigRef]; exact hne_rect)
  · intro b
    exact hsetbytes _ _ b _ (Ne.symm hne_elem)
  · intro b
    exact hsetbytes _ _ b _ hne_elem

/-- Concrete store used by the C8 witness: one image element whose Rect
lives at reference 0. -/
def storeW : Store :=
  { rects := [⟨1, 2, 3, 4⟩],
    elems := [{ id := "e", rectRef := 0, rotation := 0, opacity := 1,
                locked := false, visible := true,
                kind := ElementKind.image "img.png" [7, 8] }] }

/-- Witness for C8 at the concrete store: the clone keeps the id, and
moving the clone leaves the original Rect unchanged. -/
theorem clone_isolation_witness :
    ((cloneElementRef storeW 0).1.elemAt (cloneElementRef storeW 0).2).id
      = (storeW.elemAt 0).id ∧
    (moveToRef (cloneElementRef storeW 0).1 (cloneElementRef storeW 0).2 5 6).rectAt
        (((cloneElementRef storeW 0).1.elemAt 0).rectRef)
      = (cloneElementRef storeW 0).1.rectAt
          (((cloneElementRef storeW 0).1.elemAt 0).rectRef) :=
  ⟨(clone_isolation storeW 0 (by decide) (by decide)).1,
   (clone_isolation storeW 0 (by decide) (by decide)).2.2.2.2.2.2.2.1 5 6⟩

/-! Claim C1: history inverse law. -/

/-- Element list of the page with the given uid in an optional
document. -/
def pageElementsOf (od : Option DocumentModel) (pid : String) :
    Option (List Element) :=
  od.bind (fun d => (d.find_page_by_id pid).map PageModel.elements)

/-- Stepping undo on a state whose undo stack ends in c pops exactly c,
applies it in the undo direction, and appends it to the redo stack. -/
theorem undoStep_concat (d : DocumentModel) (us rs : List HistoryCommand)
    (c : HistoryCommand) :
    undoStep ⟨some d, us ++ [c], rs⟩
      = ⟨some (apply_history_command d c true), us, rs ++ [c]⟩ := by
  simp only [undoStep, List.getLast?_concat, List.dropLast_concat]

/-- Stepping redo on a state whose redo stack is exactly [c] pops c,
applies it forward, and appends it to the undo stack. -/
theorem redoStep_single (d : DocumentModel) (us : List HistoryCommand)
    (c : HistoryCommand) :
    redoStep ⟨some d, us, [c]⟩
      = ⟨some (apply_history_command d c false), us ++ [c], []⟩ := by
  simp only [redoStep]
  rfl

/-- add_element and remove_element keep the page uid. -/
theorem add_element_uid (p : PageModel) (e : Element) :
    (p.add_element e).uid = p.uid := rfl

/-- The document after the insert of E on the page with uid pid. -/
def insertElementOnPage (d : DocumentModel) (pid : String) (E : Element) :
    DocumentModel :=
  { d with pages := updateFirstPage d.pages pid (fun p => p.add_element E) }

/-- C1: insert a fresh element E on page P, record it with
push("insert", P.uid, E), then undo and redo: the page ends with
exactly the element list it had right after the insert (list equality,
which in particular gives equality as a set of (id, fields) pairs). -/
theorem history_inverse_law
    (d : DocumentModel) (pid : String) (P : PageModel) (E : Element)
    (us rs : List HistoryCommand)
    (hfind : d.find_page_by_id pid = some P)
    (hfresh : E.id ∉ P.elements.map Element.id) :
    pageElementsOf (redoStep (undoStep (push_history
        ⟨some (insertElementOnPage d pid E), us, rs⟩ "insert" pid E))).document pid
      = some (P.elements ++ [E]) ∧
    pageElementsOf (push_history
        ⟨some (insertElementOnPage d pid E), us, rs⟩ "insert" pid E).document pid
      = some (P.elements ++ [E]) := by
  have hfind_raw : d.pages.find? (fun p => p.uid = pid) = some P := hfind
  have hfind1 : (insertElementOnPage d pid E).find_page_by_id pid
      = some (P.add_element E) := by
    show (updateFirstPage d.pages pid (fun p => p.add_element E)).find?
      (fun p => p.uid = pid) = some (P.add_element E)
    rw [find_updateFirstPage d.pages pid (fun p => p.add_element E)
      (fun p => add_element_uid p E), hfind_raw]
    rfl
  have hpush : push_history ⟨some (insertElementOnPage d pid E), us, rs⟩ "insert" pid E
      = ⟨some (insertElementOnPage d pid E),
          us ++ [⟨"insert", pid, clone_element E⟩], []⟩ := rfl
  have hCE : clone_element (clone_element E) = E := by
    rw [clone_element_eq_self, clone_element_eq_self]
  have happly1 : apply_history_command (insertElementOnPage d pid E)
      ⟨"insert", pid, clone_element E⟩ true
      = { insertElementOnPage d pid E with
          pages := (updateFirstPage (insertElementOnPage d pid E).pages pid
            (fun p => (p.remove_element E.id).2)) } := by
    unfold apply_history_command
    rw [hfind1]
    simp only [hCE]
    simp
  have hremove : ((P.add_element E).remove_element E.id).2 = P := by
    show ({ P.add_element E with
      elements := (removeFirstById (P.elements ++ [E]) E.id).2 } : PageModel) = P
    rw [removeFirstById_concat_fresh P.elements E hfresh]
    rfl
  have hfind2 : ({ insertElementOnPage d pid E with
      pages := (updateFirstPage (insertElementOnPage d pid E).pages pid
        (fun p => (p.remove_element E.id).2)) } : DocumentModel).find_page_by_id pid
      = some P := by
    show (updateFirstPage (insertElementOnPage d pid E).pages pid
      (fun p => (p.remove_element E.id).2)).find? (fun p => p.uid = pid) = some P
    rw [find_updateFirstPage _ pid (fun p => (p.remove_element E.id).2) (fun p => rfl)]
    rw [show (insertElementOnPage d pid E).pages.find? (fun p => p.uid = pid)
      = some (P.add_element E) from hfind1]
    simp [hremove]
  have happly2 : apply_history_command ({ insertElementOnPage d pid E with
      pages := (updateFirstPage (insertElementOnPage d pid E).pages pid
        (fun p => (p.remove_element E.id).2)) } : DocumentModel)
      ⟨"insert", pid, clone_element E⟩ false
      = { insertElementOnPage d pid E with
          pages := (updateFirstPage (updateFirstPage (insertElementOnPage d pid E).pages
            pid (fun p => (p.remove_element E.id).2)) pid
            (fun p => p.add_element E)) } := by
    unfold apply_history_command
    rw [hfind2]
    simp only [hCE]
    simp
  have hfind3 : ({ insertElementOnPage d pid E with
      pages := (updateFirstPage (updateFirstPage (insertElementOnPage d pid E).pages
        pid (fun p => (p.remove_element E.id).2)) pid
        (fun p => p.add_element E)) } : DocumentModel).find_page_by_id pid
      = some (P.add_element E) := by
    show (updateFirstPage (updateFirstPage (insertElementOnPage d pid E).pages
      pid (fun p => (p.remove_element E.id).2)) pid
      (fun p => p.add_element E)).find? (fun p => p.uid = pid) = some (P.add_element E)
    rw [find_updateFirstPage _ pid (fun p => p.add_element E)
      (fun p => add_element_uid p E)]
    rw [show (updateFirstPage (insertElementOnPage d pid E).pages pid
      (fun p => (p.remove_element E.id).2)).find? (fun p => p.uid = pid)
      = some P from hfind2]
    rfl
  constructor
  · rw [hpush, undoStep_concat, happly1, List.nil_append, redoStep_single, happly2]
    show ((({ insertElementOnPage d pid E with
      pages := (updateFirstPage (updateFirstPage (insertElementOnPage d pid E).pages
        pid (fun p => (p.remove_element E.id).2)) pid
        (fun p => p.add_element E)) } : DocumentModel).find_page_by_id pid).map
        PageModel.elements) = some (P.elements ++ [E])
    rw [hfind3]
    rfl
  · rw [hpush]
    show (((insertElementOnPage d pid E).find_page_by_id pid).map
      PageModel.elements) = some (P.elements ++ [E])
    rw [hfind1]
    rfl

/-- Fresh element used by the C1 witness. -/
def ewElem : Element := { id := "e2", rect := ⟨3, 4, 20, 10⟩ }

/-- Witness for C1 on a concrete document: insert, undo, redo restores
the page elements of page "pw". -/
theorem history_inverse_law_witness :
    pageElementsOf (redoStep (undoStep (push_history
        ⟨some (insertElementOnPage dwDoc "pw" ewElem), [], []⟩
        "insert" "pw" ewElem))).document "pw"
      = some (pwPage.elements ++ [ewElem]) :=
  (history_inverse_law dwDoc "pw" pwPage ewElem [] [] (by decide) (by decide)).1

/-! Claims C2 and C9: snap priority and center exactness. -/

/-- Sibling snap targets of an element on the x axis: its left edge,
horizontal center and right edge, in the order the source enumerates
them. -/
def siblingTargetsX (e : Element) : List ℚ :=
  [e.rect.x, e.rect.x + e.rect.width / 2, e.rect.x + e.rect.width]

/-- Sibling snap targets on the y axis: top edge, vertical middle,
bottom edge. -/
def siblingTargetsY (e : Element) : List ℚ :=
  [e.rect.y, e.rect.y + e.rect.height / 2, e.rect.y + e.rect.height]

/-- The elements the sibling loop actually processes: every element of
the page other than the dragged one that is visible. -/
def eligibleSiblings (page : PageModel) (element_id : String) : List Element :=
  page.elements.filter (fun e => decide (e.id ≠ element_id) && e.visible)

/-- Follows the spec wording of rule 4, used only to state claim C2:
the dragged element's left, center and right are tested against each
candidate coordinate and the FIRST match wins (at most one adjustment
per axis). -/
def specSiblingFirstMatch (pos size : ℚ) : List ℚ → Option ℚ
  | [] => none
  | t :: rest =>
    if |pos - t| < 6 then some t
    else if |(pos + size / 2) - t| < 6 then some (t - size / 2)
    else if |(pos + size) - t| < 6 then some (t - size)
    else specSiblingFirstMatch pos size rest

/-- Follows the spec wording of the snap priority on the x axis, used
only to state claim C2: first matching rule wins among page-center,
near edge, far edge, then first-matching sibling coordinate. -/
def specSnapX (page : PageModel) (element_id : String) (x width : ℚ) : ℚ :=
  if |(x + width / 2) - page.width / 2| < 6 then page.width / 2 - width / 2
  else if |x| < 6 then 0
  else if |(x + width) - page.width| < 6 then page.width - width
  else
    match specSiblingFirstMatch x width
        ((eligibleSiblings page element_id).bind siblingTargetsX) with
    | some v => v
    | none => x

/-- The spec-worded snap priority on the y axis (claim C2). -/
def specSnapY (page : PageModel) (element_id : String) (y height : ℚ) : ℚ :=
  if |(y + height / 2) - page.height / 2| < 6 then page.height / 2 - height / 2
  else if |y| < 6 then 0
  else if |(y + height) - page.height| < 6 then page.height - height
  else
    match specSiblingFirstMatch y height
        ((eligibleSiblings page element_id).bind siblingTargetsY) with
    | some v => v
    | none => y

/-- Formalisation of claim C2 as stated: the snap computation realizes,
per axis, the first-match priority chain (page rules, then sibling
first match, sibling snapping only when no page rule matched). -/
def snapPriorityClaim : Prop :=
  ∀ (page : PageModel) (element_id : String) (x y width height : ℚ),
    (compute_snap_guides page element_id x y width height).1
        = specSnapX page element_id x width ∧
    (compute_snap_guides page element_id x y width height).2.1
        = specSnapY page element_id y height

/-- Sibling element used by the snap counterexamples. -/
def cexSib : Element := { id := "sib", rect := ⟨43, 0, 30, 5⟩ }

/-- Page used by the snap counterexamples: a 100 by 100 page holding
one visible sibling. -/
def cexPage : PageModel :=
  { width := 100, height := 100, uid := "pg", elements := [cexSib] }

/-- Concrete evaluation of the snap engine on the counterexample page:
the page-center rule fires (giving 45) and the sibling loop then
rewrites x to 43 and finally 48. -/
theorem cex_code_snap_x : (compute_snap_guides cexPage "drag" 46 70 10 10).1 = 48 := by
  norm_num [compute_snap_guides, pageSnapPairX, pageSnapPairY, siblingElementsLoop,
    siblingLoopX, siblingLoopY, cexPage, cexSib, abs_lt]
  rw [if_neg (show ¬(("sib" : String) = "drag") from by decide)]

/-- Concrete evaluation of the spec-worded priority chain on the same
input: the page-center rule matches first and gives 45. -/
theorem cex_spec_snap_x : specSnapX cexPage "drag" 46 10 = 45 := by
  norm_num [specSnapX, specSiblingFirstMatch, eligibleSiblings, siblingTargetsX,
    cexPage, cexSib, abs_lt]

/-- C2 counterexample: with the dragged 10-wide element at x = 46 the
page-center rule matches (|51 - 50| < 6) and would give x = 45, but the
code then still runs the sibling loop, which rewrites x to 43 (left
edge of the sibling) and then to 48 (right edge against the sibling
center), so the computed x disagrees with the claimed first-match
priority. -/
theorem snap_priority_counterexample : ¬ snapPriorityClaim := by
  intro hcl
  have h := (hcl cexPage "drag" 46 70 10 10).1
  rw [cex_code_snap_x, cex_spec_snap_x] at h
  norm_num at h

/-- Page-level snapping of one axis alone: first match among center,
near page edge, far page edge, else unchanged. -/
def pageSnapAxis (extent pos size : ℚ) : ℚ :=
  if |(pos + size / 2) - extent / 2| < 6 then extent / 2 - size / 2
  else if |pos| < 6 then 0
  else if |(pos + size) - extent| < 6 then extent - size
  else pos

/-- Sibling matching over one target list on one axis, the current
position tested (left/near edge, then far edge) against each target in
order, each match OVERWRITING the position — the source's inner loop,
without the guides. -/
def siblingFoldAxis (pos size : ℚ) : List ℚ → ℚ
  | [] => pos
  | t :: rest =>
    if |pos - t| < 6 then siblingFoldAxis t size rest
    else if |(pos + size) - t| < 6 then siblingFoldAxis (t - size) size rest
    else siblingFoldAxis pos size rest

/-- The x coordinate the snap engine actually produces, described per
axis: page rules first (first match wins), then the left and right
edges of the dragged element are tested against every other visible
element's left/center/right targets in element order, every match
overwriting the current x. -/
def snapResultX (page : PageModel) (element_id : String) (x width : ℚ) : ℚ :=
  (eligibleSiblings page element_id).foldl
    (fun pos e => siblingFoldAxis pos width (siblingTargetsX e))
    (pageSnapAxis page.width x width)

/-- The y coordinate the snap engine actually produces, per axis. -/
def snapResultY (page : PageModel) (element_id : String) (y height : ℚ) : ℚ :=
  (eligibleSiblings page element_id).foldl
    (fun pos e => siblingFoldAxis pos height (siblingTargetsY e))
    (pageSnapAxis page.height y height)

/-- The inner x loop computes siblingFoldAxis, independently of the
accumulated guides. -/
theorem siblingLoopX_fst (w : ℚ) (ts : List ℚ) :
    ∀ (x : ℚ) (g : List (String × ℚ)),
      (siblingLoopX 6 x w ts g).1 = siblingFoldAxis x w ts := by
  induction ts with
  | nil => intro x g; rfl
  | cons t rest ih =>
    intro x g
    simp only [siblingLoopX, siblingFoldAxis]
    split_ifs with h1 h2
    · exact ih t _
    · exact ih (t - w) _
    · exact ih x _

/-- The inner y loop computes siblingFoldAxis, independently of the
accumulated guides. -/
theorem siblingLoopY_fst (h : ℚ) (ts : List ℚ) :
    ∀ (y : ℚ) (g : List (String × ℚ)),
      (siblingLoopY 6 y h ts g).1 = siblingFoldAxis y h ts := by
  induction ts with
  | nil => intro y g; rfl
  | cons t rest ih =>
    intro y g
    simp only [siblingLoopY, siblingFoldAxis]
    split_ifs with h1 h2
    · exact ih t _
    · exact ih (t - h) _
    · exact ih y _

/-- The element loop decomposes per axis: its x result is a fold of the
x-axis matching over the eligible siblings, its y result the
corresponding y fold, and neither depends on the guides or on the other
axis. -/
theorem siblingElementsLoop_axes (element_id : String) (w h : ℚ)
    (elems : List Element) :
    ∀ (x y : ℚ) (g : List (String × ℚ)),
      (siblingElementsLoop 6 element_id w h elems x y g).1
        = (elems.filter (fun e => decide (e.id ≠ element_id) && e.visible)).foldl
            (fun pos e => siblingFoldAxis pos w (siblingTargetsX e)) x ∧
      (siblingElementsLoop 6 element_id w h elems x y g).2.1
        = (elems.filter (fun e => decide (e.id ≠ element_id) && e.visible)).foldl
            (fun pos e => siblingFoldAxis pos h (siblingTargetsY e)) y := by
  induction elems with
  | nil => intro x y g; exact ⟨rfl, rfl⟩
  | cons e rest ih =>
    intro x y g
    by_cases hid : e.id = element_id
    · rw [show siblingElementsLoop 6 element_id w h (e :: rest) x y g
          = siblingElementsLoop 6 element_id w h rest x y g from by
        simp only [siblingElementsLoop]; rw [if_pos hid]]
      rw [show (e :: rest).filter (fun e => decide (e.id ≠ element_id) && e.visible)
          = rest.filter (fun e => decide (e.id ≠ element_id) && e.visible) from by
        simp [List.filter_cons, hid]]
      exact ih x y g
    · by_cases hvis : e.visible = false
      · rw [show siblingElementsLoop 6 element_id w h (e :: rest) x y g
            = siblingElementsLoop 6 element_id w h rest x y g from by
          simp only [siblingElementsLoop]; rw [if_neg hid, if_pos hvis]]
        rw [show (e :: rest).filter (fun e => decide (e.id ≠ element_id) && e.visible)
            = rest.filter (fun e => decide (e.id ≠ element_id) && e.visible) from by
          simp [List.filter_cons, hid, hvis]]
        exact ih x y g
      · have hvis1 : e.visible = true := by
          cases hv : e.visible
          · exact absurd hv hvis
          · rfl
        rw [show siblingElementsLoop 6 element_id w h (e :: rest) x y g
            = siblingElementsLoop 6 element_id w h rest
                (siblingLoopX 6 x w (siblingTargetsX e) g).1
                (siblingLoopY 6 y h (siblingTargetsY e)
                  (siblingLoopX 6 x w (siblingTargetsX e) g).2).1
                (siblingLoopY 6 y h (siblingTargetsY e)
                  (siblingLoopX 6 x w (siblingTargetsX e) g).2).2 from by
          simp only [siblingElementsLoop]; rw [if_neg hid, if_neg hvis]; rfl]
        rw [show (e :: rest).filter (fun e => decide (e.id ≠ element_id) && e.visible)
            = e :: rest.filter (fun e => decide (e.id ≠ element_id) && e.visible) from by
          simp [List.filter_cons, hid, hvis1]]
        rcases ih (siblingLoopX 6 x w (siblingTargetsX e) g).1
          (siblingLoopY 6 y h (siblingTargetsY e)
            (siblingLoopX 6 x w (siblingTargetsX e) g).2).1
          (siblingLoopY 6 y h (siblingTargetsY e)
            (siblingLoopX 6 x w (siblingTargetsX e) g).2).2 with ⟨ihx, ihy⟩
        constructor
        · rw [ihx, siblingLoopX_fst]
          rfl
        · rw [ihy, siblingLoopY_fst]
          rfl

/-- The page-level pair agrees with the single-axis description. -/
theorem pageSnapPairX_fst (pageWidth x width : ℚ) :
    (pageSnapPairX pageWidth x width).1 = pageSnapAxis pageWidth x width := by
  unfold pageSnapPairX pageSnapAxis
  split_ifs <;> rfl

/-- The page-level y pair agrees with the single-axis description, for
any incoming guides. -/
theorem pageSnapPairY_fst (pageHeight y height : ℚ) (g : List (String × ℚ)) :
    (pageSnapPairY pageHeight y height g).1 = pageSnapAxis pageHeight y height := by
  unfold pageSnapPairY pageSnapAxis
  split_ifs <;> rfl

/-- C2 amended: per axis, the snap computation applies the page-level
rules as a first-match chain (page-center, near edge, far edge), and
then ALWAYS runs the sibling loop over every other visible element,
testing the dragged element's near and far edges (not its center)
against each sibling's left/center/right (resp. top/middle/bottom),
with every match overwriting the current coordinate (last match wins,
several adjustments per axis possible); the two axes are computed
independently. -/
theorem snap_axis_decomposition (page : PageModel) (element_id : String)
    (x y width height : ℚ) :
    (compute_snap_guides page element_id x y width height).1
        = snapResultX page element_id x width ∧
    (compute_snap_guides page element_id x y width height).2.1
        = snapResultY page element_id y height := by
  have hloop := siblingElementsLoop_axes element_id width height page.elements
    (pageSnapPairX page.width x width).1
    (pageSnapPairY page.height y height (pageSnapPairX page.width x width).2).1
    (pageSnapPairY page.height y height (pageSnapPairX page.width x width).2).2
  constructor
  · rw [show (compute_snap_guides page element_id x y width height).1
        = (siblingElementsLoop 6 element_id width height page.elements
            (pageSnapPairX page.width x width).1
            (pageSnapPairY page.height y height (pageSnapPairX page.width x width).2).1
            (pageSnapPairY page.height y height
              (pageSnapPairX page.width x width).2).2).1 from rfl]
    rw [hloop.1, pageSnapPairX_fst]
    rfl
  · rw [show (compute_snap_guides page element_id x y width height).2.1
        = (siblingElementsLoop 6 element_id width height page.elements
            (pageSnapPairX page.width x width).1
            (pageSnapPairY page.height y height (pageSnapPairX page.width x width).2).1
            (pageSnapPairY page.height y height
              (pageSnapPairX page.width x width).2).2).2.1 from rfl]
    rw [hloop.2, pageSnapPairY_fst]
    rfl

/-- Formalisation of claim C9 as stated: whenever the candidate
position puts the element center within the threshold of the page
center on an axis, the snapped position is exactly page-centered on
that axis. -/
def snapCenterExactClaim : Prop :=
  ∀ (page : PageModel) (element_id : String) (x y width height : ℚ),
    (|(x + width / 2) - page.width / 2| < 6 →
      (compute_snap_guides page element_id x y width height).1 + width / 2
        = page.width / 2) ∧
    (|(y + height / 2) - page.height / 2| < 6 →
      (compute_snap_guides page element_id x y width height).2.1 + height / 2
        = page.height / 2)

/-- C9 counterexample: at x = 46 the center rule fires (|51 - 50| < 6),
but the sibling loop afterwards moves x to 48, whose center 53 is not
the page center 50. -/
theorem snap_center_exact_counterexample : ¬ snapCenterExactClaim := by
  intro hcl
  have h := (hcl cexPage "drag" 46 70 10 10).1
    (by norm_num [cexPage, abs_lt])
  rw [cex_code_snap_x] at h
  norm_num [cexPage] at h

/-- C9 amended: if the sibling loop has nothing to process — every
other element of the page is the dragged element itself or invisible —
then, on each axis independently, an element center within the
threshold of the page center snaps to the page center exactly: the x
conclusion under the x-center premise, and the y conclusion under the
y-center premise. -/
theorem snap_center_exact_amended (page : PageModel) (element_id : String)
    (x y width height : ℚ)
    (hskip : ∀ e ∈ page.elements, e.id = element_id ∨ e.visible = false) :
    (|(x + width / 2) - page.width / 2| < 6 →
      (compute_snap_guides page element_id x y width height).1 + width / 2
        = page.width / 2) ∧
    (|(y + height / 2) - page.height / 2| < 6 →
      (compute_snap_guides page element_id x y width height).2.1 + height / 2
        = page.height / 2) := by
  have hfilter : page.elements.filter
      (fun e => decide (e.id ≠ element_id) && e.visible) = [] := by
    rw [List.filter_eq_nil]
    intro e he
    rcases hskip e he with hca | hca <;> simp [hca]
  have hloop := siblingElementsLoop_axes element_id width height page.elements
    (pageSnapPairX page.width x width).1
    (pageSnapPairY page.height y height (pageSnapPairX page.width x width).2).1
    (pageSnapPairY page.height y height (pageSnapPairX page.width x width).2).2
  constructor
  · intro hcx
    rw [show (compute_snap_guides page element_id x y width height).1
        = (siblingElementsLoop 6 element_id width height page.elements
            (pageSnapPairX page.width x width).1
            (pageSnapPairY page.height y height (pageSnapPairX page.width x width).2).1
            (pageSnapPairY page.height y height
              (pageSnapPairX page.width x width).2).2).1 from rfl]
    rw [hloop.1, hfilter, List.foldl_nil, pageSnapPairX_fst]
    unfold pageSnapAxis
    rw [if_pos hcx]
    ring
  · intro hcy
    rw [show (compute_snap_guides page element_id x y width height).2.1
        = (siblingElementsLoop 6 element_id width height page.elements
            (pageSnapPairX page.width x width).1
            (pageSnapPairY page.height y height (pageSnapPairX page.width x width).2).1
            (pageSnapPairY page.height y height
              (pageSnapPairX page.width x width).2).2).2.1 from rfl]
    rw [hloop.2, hfilter, List.foldl_nil, pageSnapPairY_fst]
    unfold pageSnapAxis
    rw [if_pos hcy]
    ring

/-- Empty page used by the C9 witness. -/
def emptyPageW : PageModel := { width := 100, height := 100, uid := "pg0" }

/-- Witness for the amended C9: on a page with no other elements, a
drag landing near the page center on both axes is centered exactly on
both axes. -/
theorem snap_center_exact_amended_witness :
    (compute_snap_guides emptyPageW "drag" 46 47 10 10).1 + 10 / 2 = 100 / 2 ∧
    (compute_snap_guides emptyPageW "drag" 46 47 10 10).2.1 + 10 / 2 = 100 / 2 := by
  have h := snap_center_exact_amended emptyPageW "drag" 46 47 10 10
    (by intro e he; exact absurd he (List.not_mem_nil e))
  have h1 := h.1 (by norm_num [emptyPageW, abs_lt])
  have h2 := h.2 (by norm_num [emptyPageW, abs_lt])
  rw [h1, h2]
  norm_num [emptyPageW]

end PdfEditor
